import Mathlib

/-!
Shallow embedding of the CoinPay payment-gateway contract
(`contracts/CoinPay.sol`, Solidity 0.8 checked arithmetic).

Addresses are naturals with `0` as the null identity; `uint256` values are
naturals, with the checked-arithmetic reverts of Solidity 0.8 made explicit
where they can fire (the fee multiplication and the fee subtraction).
Mappings are total functions, zero-initialised exactly as EVM storage is,
with the contract's own `exists` flag distinguishing allocated records.
External `call`s are abstracted by an oracle reporting success or failure
per (destination, value); each issued call also records the contract state
visible to the callee at the moment of the call.  Each external entry
point returns `Except`: an error models a revert, under which no state
change persists (the caller keeps the pre-state).
-/

namespace CoinPay

abbrev Address := Nat

/-- Success/failure of the low-level `call{value: …}("")` per destination
and value, abstracting the untrusted receiving code. -/
abbrev Oracle := Address → Nat → Bool

/-- `enum PaymentStatus { Pending, Completed, Refunded, Cancelled }` -/
inductive PaymentStatus
  | pending
  | completed
  | refunded
  | cancelled
deriving DecidableEq

/-- `struct Payment` of CoinPay.sol. -/
structure Payment where
  id : Nat
  payer : Address
  recipient : Address
  amount : Nat
  timestamp : Nat
  status : PaymentStatus
  description : String
  exists_ : Bool
deriving DecidableEq

/-- The zero-initialised storage slot an unallocated mapping entry reads as. -/
def zeroPayment : Payment :=
  ⟨0, 0, 0, 0, 0, PaymentStatus.pending, "", false⟩

/-- The contract's storage. -/
structure CoinPayState where
  owner : Address
  paymentCounter : Nat
  payments : Nat → Payment
  userPayments : Address → List Nat
  platformFeeBps : Nat
  feeRecipient : Address

/-- One issued low-level call: destination, value, and the contract state
the callee observes while the call is in flight. -/
structure TransferCall where
  dest : Address
  value : Nat
  snapshot : CoinPayState

/-- Errors, one per distinct `require` message of the contract. -/
inductive CoinPayError
  | invalidRecipient
  | invalidAmount
  | invalidFee
  | notOwner
  | unauthorized
  | invalidState
  | notFound
  | transferFailed
  | arithmeticError
deriving DecidableEq

/-- `constructor(address _feeRecipient)`: sets owner and fee recipient with
no validation of either; `platformFeeBps` starts at its declared value 25. -/
def constructorFn (deployer feeRecipientArg : Address) : CoinPayState :=
  { owner := deployer
    paymentCounter := 0
    payments := fun _ => zeroPayment
    userPayments := fun _ => []
    platformFeeBps := 25
    feeRecipient := feeRecipientArg }

/-- The single storage write `payment.status = …` performed by each
transition. -/
def setStatus (st : CoinPayState) (pid : Nat) (s : PaymentStatus) : CoinPayState :=
  { st with payments := fun k => if k = pid then { st.payments pid with status := s } else st.payments k }

/-- Lines 147–148 of CoinPay.sol under Solidity 0.8 checked arithmetic:
`feeAmount = (amount * feeBps) / 10000; recipientAmount = amount - feeAmount`,
returning `none` where the checked multiplication or subtraction reverts. -/
def split (amount feeBps : Nat) : Option (Nat × Nat) :=
  if amount * feeBps < 2 ^ 256 then
    let feeAmount := amount * feeBps / 10000
    if feeAmount ≤ amount then some (feeAmount, amount - feeAmount)
    else none
  else none

/-- `_completePayment`: requires `status == Pending`, writes
`status = Completed`, computes the fee split from the stored
`platformFeeBps`, pays the fee leg only when `feeAmount > 0` and the fee
recipient is non-null, then pays the recipient leg; any failed leg
reverts the whole transition. -/
def completePayment (oracle : Oracle) (pid : Nat) (st : CoinPayState) :
    Except CoinPayError (CoinPayState × List TransferCall) :=
  let payment := st.payments pid
  if payment.status = PaymentStatus.pending then
    let st1 := setStatus st pid PaymentStatus.completed
    match split payment.amount st.platformFeeBps with
    | none => Except.error CoinPayError.arithmeticError
    | some (feeAmount, recipientAmount) =>
      if 0 < feeAmount ∧ st.feeRecipient ≠ 0 then
        if oracle st.feeRecipient feeAmount then
          if oracle payment.recipient recipientAmount then
            Except.ok (st1, [⟨st.feeRecipient, feeAmount, st1⟩, ⟨payment.recipient, recipientAmount, st1⟩])
          else Except.error CoinPayError.transferFailed
        else Except.error CoinPayError.transferFailed
      else
        if oracle payment.recipient recipientAmount then
          Except.ok (st1, [⟨payment.recipient, recipientAmount, st1⟩])
        else Except.error CoinPayError.transferFailed
  else Except.error CoinPayError.invalidState

/-- The ledger mutation of `createPayment` before auto-completion:
`paymentCounter++`, store the Pending record at the new id, append the id
to the payer's index. -/
def allocState (caller recipient : Address) (value : Nat) (description : String)
    (timestamp : Nat) (st : CoinPayState) : CoinPayState :=
  { st with
      paymentCounter := st.paymentCounter + 1
      payments := fun k =>
        if k = st.paymentCounter + 1 then
          ⟨st.paymentCounter + 1, caller, recipient, value, timestamp,
            PaymentStatus.pending, description, true⟩
        else st.payments k
      userPayments := fun a =>
        if a = caller then st.userPayments caller ++ [st.paymentCounter + 1]
        else st.userPayments a }

/-- `createPayment(address _recipient, string _description) payable`:
validates recipient non-null, recipient ≠ sender, value > 0; allocates
id `paymentCounter + 1`, stores a Pending record, appends the id to the
payer's index, then auto-completes via `_completePayment`. -/
def createPayment (oracle : Oracle) (caller recipient : Address) (value : Nat)
    (description : String) (timestamp : Nat) (st : CoinPayState) :
    Except CoinPayError (Nat × CoinPayState × List TransferCall) :=
  if recipient = 0 then Except.error CoinPayError.invalidRecipient
  else if recipient = caller then Except.error CoinPayError.invalidRecipient
  else if value = 0 then Except.error CoinPayError.invalidAmount
  else
    let pid := st.paymentCounter + 1
    let st1 := allocState caller recipient value description timestamp st
    match completePayment oracle pid st1 with
    | Except.ok (st2, calls) => Except.ok (pid, st2, calls)
    | Except.error e => Except.error e

/-- `refundPayment(uint256 _paymentId)`: `validPayment` modifier, then
payer-or-owner authorization, then requires status Pending or Completed,
writes `status = Refunded`, and pays the full original amount back to the
payer. -/
def refundPayment (oracle : Oracle) (caller : Address) (pid : Nat) (st : CoinPayState) :
    Except CoinPayError (CoinPayState × List TransferCall) :=
  if (st.payments pid).exists_ then
    let payment := st.payments pid
    if caller = payment.payer ∨ caller = st.owner then
      if payment.status = PaymentStatus.pending ∨ payment.status = PaymentStatus.completed then
        let st1 := setStatus st pid PaymentStatus.refunded
        if oracle payment.payer payment.amount then
          Except.ok (st1, [⟨payment.payer, payment.amount, st1⟩])
        else Except.error CoinPayError.transferFailed
      else Except.error CoinPayError.invalidState
    else Except.error CoinPayError.unauthorized
  else Except.error CoinPayError.notFound

/-- `cancelPayment(uint256 _paymentId)`: `validPayment` modifier, then
payer-or-owner authorization, then requires status Pending, writes
`status = Cancelled`, and pays the full original amount back to the payer. -/
def cancelPayment (oracle : Oracle) (caller : Address) (pid : Nat) (st : CoinPayState) :
    Except CoinPayError (CoinPayState × List TransferCall) :=
  if (st.payments pid).exists_ then
    let payment := st.payments pid
    if caller = payment.payer ∨ caller = st.owner then
      if payment.status = PaymentStatus.pending then
        let st1 := setStatus st pid PaymentStatus.cancelled
        if oracle payment.payer payment.amount then
          Except.ok (st1, [⟨payment.payer, payment.amount, st1⟩])
        else Except.error CoinPayError.transferFailed
      else Except.error CoinPayError.invalidState
    else Except.error CoinPayError.unauthorized
  else Except.error CoinPayError.notFound

/-- `updatePlatformFee(uint256 _newFeeBps)`: owner-only, rejects any rate
above 1000 basis points (10%). -/
def updatePlatformFee (caller : Address) (newFeeBps : Nat) (st : CoinPayState) :
    Except CoinPayError CoinPayState :=
  if caller = st.owner then
    if newFeeBps ≤ 1000 then Except.ok { st with platformFeeBps := newFeeBps }
    else Except.error CoinPayError.invalidFee
  else Except.error CoinPayError.notOwner

/-- `updateFeeRecipient(address _newFeeRecipient)`: owner-only, rejects the
null address. -/
def updateFeeRecipient (caller newFeeRecipient : Address) (st : CoinPayState) :
    Except CoinPayError CoinPayState :=
  if caller = st.owner then
    if newFeeRecipient = 0 then Except.error CoinPayError.invalidRecipient
    else Except.ok { st with feeRecipient := newFeeRecipient }
  else Except.error CoinPayError.notOwner

/-- EVM revert semantics at the transaction boundary: an error leaves the
pre-state intact, a success commits the returned state. -/
def commitOr (r : Except CoinPayError (CoinPayState × List TransferCall))
    (st : CoinPayState) : CoinPayState :=
  match r with
  | Except.ok (st', _) => st'
  | Except.error _ => st

def isError {α : Type} (r : Except CoinPayError α) : Bool :=
  match r with
  | Except.error _ => true
  | Except.ok _ => false

/-- The externally submittable operations of the lifecycle engine. -/
inductive Op
  | create (caller recipient : Address) (value : Nat) (description : String) (timestamp : Nat)
  | refund (caller : Address) (pid : Nat)
  | cancel (caller : Address) (pid : Nat)
  | setFee (caller : Address) (newFeeBps : Nat)
  | setFeeRecipient (caller newFeeRecipient : Address)

/-- Execute one operation as a transaction: a revert keeps the old state
and commits no transfers; a success commits the new state and attributes
each committed transfer value to the payment id of the transition. -/
def execOp (oracle : Oracle) (op : Op) (st : CoinPayState) :
    CoinPayState × List (Nat × Nat) :=
  match op with
  | Op.create caller recipient value description timestamp =>
    match createPayment oracle caller recipient value description timestamp st with
    | Except.ok (pid, st', calls) => (st', calls.map fun c => (pid, c.value))
    | Except.error _ => (st, [])
  | Op.refund caller pid =>
    match refundPayment oracle caller pid st with
    | Except.ok (st', calls) => (st', calls.map fun c => (pid, c.value))
    | Except.error _ => (st, [])
  | Op.cancel caller pid =>
    match cancelPayment oracle caller pid st with
    | Except.ok (st', calls) => (st', calls.map fun c => (pid, c.value))
    | Except.error _ => (st, [])
  | Op.setFee caller newFeeBps =>
    match updatePlatformFee caller newFeeBps st with
    | Except.ok st' => (st', [])
    | Except.error _ => (st, [])
  | Op.setFeeRecipient caller newFeeRecipient =>
    match updateFeeRecipient caller newFeeRecipient st with
    | Except.ok st' => (st', [])
    | Except.error _ => (st, [])

/-- Run a sequence of operations, accumulating the attributed outbound
transfer ledger. -/
def run (oracle : Oracle) (ops : List Op) (st : CoinPayState) :
    CoinPayState × List (Nat × Nat) :=
  match ops with
  | [] => (st, [])
  | op :: rest =>
    let r1 := execOp oracle op st
    let r2 := run oracle rest r1.1
    (r2.1, r1.2 ++ r2.2)

/-- Total outbound value attributed to payment `pid` in a transfer ledger. -/
def outboundFor (pid : Nat) : List (Nat × Nat) → Nat
  | [] => 0
  | e :: rest => (if e.1 = pid then e.2 else 0) + outboundFor pid rest

/-- Lifetime accounting of one payment id against the committed transfer
ledger: an unallocated id has no attributable outbound value; an allocated
payment is in one of the two reachable statuses, with total outbound equal
to `amount` while Completed and to `2 * amount` once Refunded (the refund
pays the full amount again on top of the completion payouts). -/
def PaymentAccounted (st : CoinPayState) (led : List (Nat × Nat)) (pid : Nat) : Prop :=
  if (st.payments pid).exists_ then
    ((st.payments pid).status = PaymentStatus.completed ∧
      outboundFor pid led = (st.payments pid).amount) ∨
    ((st.payments pid).status = PaymentStatus.refunded ∧
      outboundFor pid led = 2 * (st.payments pid).amount)
  else outboundFor pid led = 0

/-- Invariant tying a reachable state to the transfer ledger accumulated so
far, for deployments whose fee recipient is non-null. -/
def Accounted (st : CoinPayState) (led : List (Nat × Nat)) : Prop :=
  st.feeRecipient ≠ 0 ∧
  (∀ pid, st.paymentCounter < pid → st.payments pid = zeroPayment) ∧
  ∀ pid, PaymentAccounted st led pid

/-! ### Concrete sample data used by witnesses and counterexamples -/

/-- An environment in which every outbound transfer succeeds. -/
def oracleT : Oracle := fun _ _ => true

/-- An environment in which every outbound transfer fails. -/
def oracleF : Oracle := fun _ _ => false

/-- A sample allocated payment: id 1, payer 3, recipient 4, amount 1000. -/
def paymentB : Payment :=
  ⟨1, 3, 4, 1000, 0, PaymentStatus.pending, "", true⟩

/-- A sample contract state holding `paymentB`, owner 1, fee recipient 2,
fee rate 25 bps. -/
def stB : CoinPayState :=
  { owner := 1
    paymentCounter := 1
    payments := fun k => if k = 1 then paymentB else zeroPayment
    userPayments := fun a => if a = 3 then [1] else []
    platformFeeBps := 25
    feeRecipient := 2 }

/-- `stB` with a null fee recipient, as the constructor permits. -/
def stB0 : CoinPayState := { stB with feeRecipient := 0 }

/-- `stB` with payment 1 already refunded. -/
def stBRefunded : CoinPayState := setStatus stB 1 PaymentStatus.refunded

/-- `stB` with payment 1 already cancelled. -/
def stBCancelled : CoinPayState := setStatus stB 1 PaymentStatus.cancelled

/-- `stB` with payment 1 already completed. -/
def stBCompleted : CoinPayState := setStatus stB 1 PaymentStatus.completed

/-- `stB0` with payment 1 already completed. -/
def stE : CoinPayState := setStatus stB0 1 PaymentStatus.completed

/-- The state resulting from one payment creation on a fresh deployment. -/
def stC : CoinPayState :=
  setStatus (allocState 3 4 1000 "" 0 (constructorFn 1 2)) 1 PaymentStatus.completed

/-- `stB` after the admin raises the fee to the 1000 bps cap. -/
def stD : CoinPayState := { stB with platformFeeBps := 1000 }

/-- `stD` with payment 1 already completed. -/
def stD2 : CoinPayState := setStatus stD 1 PaymentStatus.completed

/-- A deployment followed by one created (auto-completed) payment and its
refund, every transfer succeeding. -/
def trace1 : CoinPayState × List (Nat × Nat) :=
  run oracleT [Op.create 3 4 1000 "" 0, Op.refund 3 1] (constructorFn 1 2)

/-! ### Basic lemmas about the embedding -/

theorem setStatus_payments_self (st : CoinPayState) (pid : Nat) (s : PaymentStatus) :
    (setStatus st pid s).payments pid = { st.payments pid with status := s } := by
  simp [setStatus]

theorem setStatus_payments_other (st : CoinPayState) (pid q : Nat) (s : PaymentStatus)
    (h : q ≠ pid) : (setStatus st pid s).payments q = st.payments q := by
  simp [setStatus, h]

theorem setStatus_owner (st : CoinPayState) (pid : Nat) (s : PaymentStatus) :
    (setStatus st pid s).owner = st.owner := rfl

theorem setStatus_counter (st : CoinPayState) (pid : Nat) (s : PaymentStatus) :
    (setStatus st pid s).paymentCounter = st.paymentCounter := rfl

theorem setStatus_feeBps (st : CoinPayState) (pid : Nat) (s : PaymentStatus) :
    (setStatus st pid s).platformFeeBps = st.platformFeeBps := rfl

theorem setStatus_feeRecipient (st : CoinPayState) (pid : Nat) (s : PaymentStatus) :
    (setStatus st pid s).feeRecipient = st.feeRecipient := rfl

theorem allocState_counter (caller recipient : Address) (value : Nat) (description : String)
    (timestamp : Nat) (st : CoinPayState) :
    (allocState caller recipient value description timestamp st).paymentCounter =
      st.paymentCounter + 1 := rfl

theorem allocState_feeRecipient (caller recipient : Address) (value : Nat)
    (description : String) (timestamp : Nat) (st : CoinPayState) :
    (allocState caller recipient value description timestamp st).feeRecipient =
      st.feeRecipient := rfl

theorem allocState_feeBps (caller recipient : Address) (value : Nat)
    (description : String) (timestamp : Nat) (st : CoinPayState) :
    (allocState caller recipient value description timestamp st).platformFeeBps =
      st.platformFeeBps := rfl

theorem allocState_payments_self (caller recipient : Address) (value : Nat)
    (description : String) (timestamp : Nat) (st : CoinPayState) :
    (allocState caller recipient value description timestamp st).payments
        (st.paymentCounter + 1) =
      ⟨st.paymentCounter + 1, caller, recipient, value, timestamp,
        PaymentStatus.pending, description, true⟩ := by
  simp [allocState]

theorem allocState_payments_other (caller recipient : Address) (value : Nat)
    (description : String) (timestamp : Nat) (st : CoinPayState) (q : Nat)
    (h : q ≠ st.paymentCounter + 1) :
    (allocState caller recipient value description timestamp st).payments q =
      st.payments q := by
  simp [allocState, h]

theorem outboundFor_append (pid : Nat) (a b : List (Nat × Nat)) :
    outboundFor pid (a ++ b) = outboundFor pid a + outboundFor pid b := by
  induction a with
  | nil => simp [outboundFor]
  | cons e rest ih => simp [outboundFor, ih]; omega

/-- Full characterisation of a successful `split`. -/
theorem split_ok (amount feeBps f r : Nat) (h : split amount feeBps = some (f, r)) :
    f = amount * feeBps / 10000 ∧ r = amount - f ∧ f ≤ amount ∧ f + r = amount := by
  unfold split at h
  by_cases h1 : amount * feeBps < 2 ^ 256
  · rw [if_pos h1] at h
    by_cases h2 : amount * feeBps / 10000 ≤ amount
    · rw [if_pos h2] at h
      simp only [Option.some.injEq, Prod.mk.injEq] at h
      obtain ⟨hf, hr⟩ := h
      subst hf; subst hr
      exact ⟨rfl, rfl, h2, by omega⟩
    · rw [if_neg h2] at h; exact absurd h (by simp)
  · rw [if_neg h1] at h; exact absurd h (by simp)

/-- Inversion for a committed `refundPayment`. -/
theorem refundPayment_ok (oracle : Oracle) (caller : Address) (pid : Nat)
    (st st2 : CoinPayState) (calls : List TransferCall)
    (h : refundPayment oracle caller pid st = Except.ok (st2, calls)) :
    (st.payments pid).exists_ = true ∧
    (caller = (st.payments pid).payer ∨ caller = st.owner) ∧
    ((st.payments pid).status = PaymentStatus.pending ∨
      (st.payments pid).status = PaymentStatus.completed) ∧
    oracle (st.payments pid).payer (st.payments pid).amount = true ∧
    st2 = setStatus st pid PaymentStatus.refunded ∧
    calls = [⟨(st.payments pid).payer, (st.payments pid).amount, st2⟩] := by
  simp only [refundPayment] at h
  split at h
  case isFalse => exact absurd h (by simp)
  case isTrue hex =>
    split at h
    case isFalse => exact absurd h (by simp)
    case isTrue hauth =>
      split at h
      case isFalse => exact absurd h (by simp)
      case isTrue hst =>
        split at h
        case isFalse => exact absurd h (by simp)
        case isTrue hor =>
          simp only [Except.ok.injEq, Prod.mk.injEq] at h
          obtain ⟨h1, h2⟩ := h
          exact ⟨hex, hauth, hst, hor, h1.symm, by rw [← h1, ← h2]⟩

/-- Inversion for a committed `cancelPayment`. -/
theorem cancelPayment_ok (oracle : Oracle) (caller : Address) (pid : Nat)
    (st st2 : CoinPayState) (calls : List TransferCall)
    (h : cancelPayment oracle caller pid st = Except.ok (st2, calls)) :
    (st.payments pid).exists_ = true ∧
    (caller = (st.payments pid).payer ∨ caller = st.owner) ∧
    (st.payments pid).status = PaymentStatus.pending ∧
    oracle (st.payments pid).payer (st.payments pid).amount = true ∧
    st2 = setStatus st pid PaymentStatus.cancelled ∧
    calls = [⟨(st.payments pid).payer, (st.payments pid).amount, st2⟩] := by
  simp only [cancelPayment] at h
  split at h
  case isFalse => exact absurd h (by simp)
  case isTrue hex =>
    split at h
    case isFalse => exact absurd h (by simp)
    case isTrue hauth =>
      split at h
      case isFalse => exact absurd h (by simp)
      case isTrue hst =>
        split at h
        case isFalse => exact absurd h (by simp)
        case isTrue hor =>
          simp only [Except.ok.injEq, Prod.mk.injEq] at h
          obtain ⟨h1, h2⟩ := h
          exact ⟨hex, hauth, hst, hor, h1.symm, by rw [← h1, ← h2]⟩

/-- Inversion for a committed `completePayment`: the committed state, the
pre-state status, and the issued calls. -/
theorem completePayment_ok (oracle : Oracle) (pid : Nat)
    (st st2 : CoinPayState) (calls : List TransferCall)
    (h : completePayment oracle pid st = Except.ok (st2, calls)) :
    (st.payments pid).status = PaymentStatus.pending ∧
    st2 = setStatus st pid PaymentStatus.completed ∧
    ∃ f r, split (st.payments pid).amount st.platformFeeBps = some (f, r) ∧
      ((0 < f ∧ st.feeRecipient ≠ 0) ∧
        calls = [⟨st.feeRecipient, f, st2⟩, ⟨(st.payments pid).recipient, r, st2⟩] ∨
      ¬(0 < f ∧ st.feeRecipient ≠ 0) ∧
        calls = [⟨(st.payments pid).recipient, r, st2⟩]) := by
  simp only [completePayment] at h
  split at h
  case isFalse => exact absurd h (by simp)
  case isTrue hpend =>
    split at h
    case h_1 => exact absurd h (by simp)
    case h_2 f r hsplit =>
      split at h
      case isTrue hfee =>
        split at h
        case isFalse => exact absurd h (by simp)
        case isTrue hor1 =>
          split at h
          case isFalse => exact absurd h (by simp)
          case isTrue hor2 =>
            simp only [Except.ok.injEq, Prod.mk.injEq] at h
            obtain ⟨h1, h2⟩ := h
            refine ⟨hpend, h1.symm, f, r, hsplit, Or.inl ⟨hfee, ?_⟩⟩
            rw [← h1, ← h2]
      case isFalse hfee =>
        split at h
        case isFalse => exact absurd h (by simp)
        case isTrue hor2 =>
          simp only [Except.ok.injEq, Prod.mk.injEq] at h
          obtain ⟨h1, h2⟩ := h
          refine ⟨hpend, h1.symm, f, r, hsplit, Or.inr ⟨hfee, ?_⟩⟩
          rw [← h1, ← h2]

/-- Inversion for a committed `createPayment`. -/
theorem createPayment_ok (oracle : Oracle) (caller recipient : Address) (value : Nat)
    (description : String) (timestamp : Nat) (st st2 : CoinPayState) (pid : Nat)
    (calls : List TransferCall)
    (h : createPayment oracle caller recipient value description timestamp st =
      Except.ok (pid, st2, calls)) :
    recipient ≠ 0 ∧ recipient ≠ caller ∧ value ≠ 0 ∧
    pid = st.paymentCounter + 1 ∧
    completePayment oracle pid
      (allocState caller recipient value description timestamp st) =
      Except.ok (st2, calls) := by
  simp only [createPayment] at h
  split at h
  case isTrue => exact absurd h (by simp)
  case isFalse h0 =>
    split at h
    case isTrue => exact absurd h (by simp)
    case isFalse h1 =>
      split at h
      case isTrue => exact absurd h (by simp)
      case isFalse h2 =>
        split at h
        case h_1 stc callsc hc =>
          simp only [Except.ok.injEq, Prod.mk.injEq] at h
          obtain ⟨hp, hs, hl⟩ := h
          subst hp
          refine ⟨h0, h1, h2, rfl, ?_⟩
          rw [hc, hs, hl]
        case h_2 => exact absurd h (by simp)

/-- Inversion for a committed `updatePlatformFee`. -/
theorem updatePlatformFee_ok (caller : Address) (newFeeBps : Nat) (st st2 : CoinPayState)
    (h : updatePlatformFee caller newFeeBps st = Except.ok st2) :
    caller = st.owner ∧ newFeeBps ≤ 1000 ∧ st2 = { st with platformFeeBps := newFeeBps } := by
  simp only [updatePlatformFee] at h
  split at h
  case isFalse => exact absurd h (by simp)
  case isTrue hc =>
    split at h
    case isFalse => exact absurd h (by simp)
    case isTrue hb =>
      simp only [Except.ok.injEq] at h
      exact ⟨hc, hb, h.symm⟩

/-- Inversion for a committed `updateFeeRecipient`. -/
theorem updateFeeRecipient_ok (caller newFeeRecipient : Address) (st st2 : CoinPayState)
    (h : updateFeeRecipient caller newFeeRecipient st = Except.ok st2) :
    caller = st.owner ∧ newFeeRecipient ≠ 0 ∧
    st2 = { st with feeRecipient := newFeeRecipient } := by
  simp only [updateFeeRecipient] at h
  split at h
  case isFalse => exact absurd h (by simp)
  case isTrue hc =>
    split at h
    case isTrue => exact absurd h (by simp)
    case isFalse hz =>
      simp only [Except.ok.injEq] at h
      exact ⟨hc, hz, h.symm⟩

theorem setStatus_userPayments (st : CoinPayState) (pid : Nat) (s : PaymentStatus) :
    (setStatus st pid s).userPayments = st.userPayments := rfl

/-- If the stored status is neither Pending nor Completed, `refundPayment`
reverts no matter who calls it and how the transfers would go. -/
theorem refund_error_of_terminal (oracle : Oracle) (caller : Address) (pid : Nat)
    (st : CoinPayState)
    (h1 : (st.payments pid).status ≠ PaymentStatus.pending)
    (h2 : (st.payments pid).status ≠ PaymentStatus.completed) :
    isError (refundPayment oracle caller pid st) = true := by
  simp only [refundPayment]
  have hnst : ¬((st.payments pid).status = PaymentStatus.pending ∨
      (st.payments pid).status = PaymentStatus.completed) := by
    rintro (h | h)
    · exact h1 h
    · exact h2 h
  by_cases hex : (st.payments pid).exists_ = true
  · rw [if_pos hex]
    by_cases hauth : caller = (st.payments pid).payer ∨ caller = st.owner
    · rw [if_pos hauth, if_neg hnst]
      rfl
    · rw [if_neg hauth]
      rfl
  · rw [if_neg hex]
    rfl

/-- If the stored status is not Pending, `cancelPayment` reverts no matter
who calls it and how the transfers would go. -/
theorem cancel_error_of_not_pending (oracle : Oracle) (caller : Address) (pid : Nat)
    (st : CoinPayState)
    (h1 : (st.payments pid).status ≠ PaymentStatus.pending) :
    isError (cancelPayment oracle caller pid st) = true := by
  simp only [cancelPayment]
  by_cases hex : (st.payments pid).exists_ = true
  · rw [if_pos hex]
    by_cases hauth : caller = (st.payments pid).payer ∨ caller = st.owner
    · rw [if_pos hauth, if_neg h1]
      rfl
    · rw [if_neg hauth]
      rfl
  · rw [if_neg hex]
    rfl

/-- If the stored status is not Pending, `_completePayment` reverts. -/
theorem complete_error_of_not_pending (oracle : Oracle) (pid : Nat)
    (st : CoinPayState)
    (h1 : (st.payments pid).status ≠ PaymentStatus.pending) :
    isError (completePayment oracle pid st) = true := by
  simp only [completePayment]
  rw [if_neg h1]
  rfl

/-! ### Claim theorems -/

/-- C5: whenever the fee split of lines 147–148 computes (it can only revert
on 256-bit overflow), `feeAmount = floor(amount * feeBps / 10000)` and
`recipientAmount = amount - feeAmount`, so their sum is exactly `amount`;
in particular `split 1000 25 = (2, 998)`. -/
theorem c5_fee_split_exact (amount feeBps f r : Nat)
    (h : split amount feeBps = some (f, r)) :
    f = amount * feeBps / 10000 ∧ r = amount - f ∧ f + r = amount ∧
    split 1000 25 = some (2, 998) := by
  obtain ⟨h1, h2, _, h4⟩ := split_ok amount feeBps f r h
  exact ⟨h1, h2, h4, by decide⟩

theorem c5_fee_split_exact_witness :
    split 1000 25 = some (2, 998) ∧
    (2 = 1000 * 25 / 10000 ∧ 998 = 1000 - 2 ∧ 2 + 998 = 1000 ∧
      split 1000 25 = some (2, 998)) :=
  ⟨by decide, c5_fee_split_exact 1000 25 2 998 (by decide)⟩

/-- C4: for every existing payment with status Pending or Completed, a
successful `refundPayment` by the payer or the admin transfers exactly the
original `amount` (not `amount` minus fee) to the payer and sets the status
to Refunded. -/
theorem c4_refund_full_amount (oracle : Oracle) (caller : Address) (pid : Nat)
    (st : CoinPayState)
    (hex : (st.payments pid).exists_ = true)
    (hauth : caller = (st.payments pid).payer ∨ caller = st.owner)
    (hst : (st.payments pid).status = PaymentStatus.pending ∨
      (st.payments pid).status = PaymentStatus.completed)
    (hor : oracle (st.payments pid).payer (st.payments pid).amount = true) :
    refundPayment oracle caller pid st =
      Except.ok (setStatus st pid PaymentStatus.refunded,
        [⟨(st.payments pid).payer, (st.payments pid).amount,
          setStatus st pid PaymentStatus.refunded⟩]) ∧
    ((setStatus st pid PaymentStatus.refunded).payments pid).status =
      PaymentStatus.refunded := by
  constructor
  · simp only [refundPayment]
    rw [if_pos hex, if_pos hauth, if_pos hst, if_pos hor]
  · rw [setStatus_payments_self]

theorem c4_refund_full_amount_witness :
    ((stB.payments 1).exists_ = true ∧
      ((3 : Address) = (stB.payments 1).payer ∨ (3 : Address) = stB.owner) ∧
      ((stB.payments 1).status = PaymentStatus.pending ∨
        (stB.payments 1).status = PaymentStatus.completed) ∧
      oracleT (stB.payments 1).payer (stB.payments 1).amount = true) ∧
    (refundPayment oracleT 3 1 stB =
      Except.ok (setStatus stB 1 PaymentStatus.refunded,
        [⟨(stB.payments 1).payer, (stB.payments 1).amount,
          setStatus stB 1 PaymentStatus.refunded⟩]) ∧
      ((setStatus stB 1 PaymentStatus.refunded).payments 1).status =
        PaymentStatus.refunded) :=
  ⟨⟨by decide, by decide, by decide, rfl⟩,
    c4_refund_full_amount oracleT 3 1 stB (by decide) (by decide) (by decide) rfl⟩

/-- C7: a caller that is neither the payer nor the admin gets `unauthorized`
from both `cancelPayment` and `refundPayment` with no state change, and an
id that was never created gets `notFound` from both. -/
theorem c7_unauthorized_and_not_found (oracle : Oracle) (caller : Address) (pid : Nat)
    (st : CoinPayState) :
    ((st.payments pid).exists_ = true → caller ≠ (st.payments pid).payer →
      caller ≠ st.owner →
      refundPayment oracle caller pid st = Except.error CoinPayError.unauthorized ∧
      cancelPayment oracle caller pid st = Except.error CoinPayError.unauthorized ∧
      commitOr (refundPayment oracle caller pid st) st = st ∧
      commitOr (cancelPayment oracle caller pid st) st = st) ∧
    ((st.payments pid).exists_ = false →
      refundPayment oracle caller pid st = Except.error CoinPayError.notFound ∧
      cancelPayment oracle caller pid st = Except.error CoinPayError.notFound) := by
  constructor
  · intro hex hp ho
    have hna : ¬(caller = (st.payments pid).payer ∨ caller = st.owner) := by
      rintro (h | h)
      · exact hp h
      · exact ho h
    have h1 : refundPayment oracle caller pid st = Except.error CoinPayError.unauthorized := by
      simp only [refundPayment]
      rw [if_pos hex, if_neg hna]
    have h2 : cancelPayment oracle caller pid st = Except.error CoinPayError.unauthorized := by
      simp only [cancelPayment]
      rw [if_pos hex, if_neg hna]
    refine ⟨h1, h2, by rw [h1]; rfl, by rw [h2]; rfl⟩
  · intro hex
    have hne : ¬((st.payments pid).exists_ = true) := by simp [hex]
    constructor
    · simp only [refundPayment]
      rw [if_neg hne]
    · simp only [cancelPayment]
      rw [if_neg hne]

theorem c7_unauthorized_and_not_found_witness :
    ((stB.payments 1).exists_ = true ∧ (5 : Address) ≠ (stB.payments 1).payer ∧
      (5 : Address) ≠ stB.owner ∧
      refundPayment oracleT 5 1 stB = Except.error CoinPayError.unauthorized ∧
      cancelPayment oracleT 5 1 stB = Except.error CoinPayError.unauthorized) ∧
    ((stB.payments 2).exists_ = false ∧
      refundPayment oracleT 5 2 stB = Except.error CoinPayError.notFound ∧
      cancelPayment oracleT 5 2 stB = Except.error CoinPayError.notFound) := by
  refine ⟨⟨by decide, by decide, by decide, ?_, ?_⟩, by decide, ?_, ?_⟩
  · exact ((c7_unauthorized_and_not_found oracleT 5 1 stB).1
      (by decide) (by decide) (by decide)).1
  · exact ((c7_unauthorized_and_not_found oracleT 5 1 stB).1
      (by decide) (by decide) (by decide)).2.1
  · exact ((c7_unauthorized_and_not_found oracleT 5 2 stB).2 (by decide)).1
  · exact ((c7_unauthorized_and_not_found oracleT 5 2 stB).2 (by decide)).2

/-- C6: `cancelPayment` commits only from Pending and `refundPayment` only
from Pending or Completed; on a Refunded or Cancelled payment both fail
with `invalidState` leaving the state unchanged, and in particular a second
`refundPayment` of the same id fails with `invalidState`. -/
theorem c6_transition_guards (oracle or2 : Oracle) (caller c2 : Address) (pid : Nat)
    (st : CoinPayState)
    (hex : (st.payments pid).exists_ = true)
    (hauth : caller = (st.payments pid).payer ∨ caller = st.owner)
    (hauth2 : c2 = (st.payments pid).payer ∨ c2 = st.owner) :
    (∀ stR calls, cancelPayment oracle caller pid st = Except.ok (stR, calls) →
      (st.payments pid).status = PaymentStatus.pending) ∧
    (∀ stR calls, refundPayment oracle caller pid st = Except.ok (stR, calls) →
      (st.payments pid).status = PaymentStatus.pending ∨
      (st.payments pid).status = PaymentStatus.completed) ∧
    ((st.payments pid).status = PaymentStatus.refunded ∨
      (st.payments pid).status = PaymentStatus.cancelled →
      refundPayment oracle caller pid st = Except.error CoinPayError.invalidState ∧
      cancelPayment oracle caller pid st = Except.error CoinPayError.invalidState ∧
      commitOr (refundPayment oracle caller pid st) st = st ∧
      commitOr (cancelPayment oracle caller pid st) st = st) ∧
    (∀ stR calls, refundPayment oracle caller pid st = Except.ok (stR, calls) →
      refundPayment or2 c2 pid stR = Except.error CoinPayError.invalidState) := by
  refine ⟨?_, ?_, ?_, ?_⟩
  · intro stR calls hok
    exact (cancelPayment_ok oracle caller pid st stR calls hok).2.2.1
  · intro stR calls hok
    exact (refundPayment_ok oracle caller pid st stR calls hok).2.2.1
  · intro hterm
    have hnst : ¬((st.payments pid).status = PaymentStatus.pending ∨
        (st.payments pid).status = PaymentStatus.completed) := by
      rcases hterm with h | h <;> rw [h] <;> rintro (hc | hc) <;> exact absurd hc (by decide)
    have hnp : ¬((st.payments pid).status = PaymentStatus.pending) := by
      intro hc
      exact hnst (Or.inl hc)
    have h1 : refundPayment oracle caller pid st = Except.error CoinPayError.invalidState := by
      simp only [refundPayment]
      rw [if_pos hex, if_pos hauth, if_neg hnst]
    have h2 : cancelPayment oracle caller pid st = Except.error CoinPayError.invalidState := by
      simp only [cancelPayment]
      rw [if_pos hex, if_pos hauth, if_neg hnp]
    exact ⟨h1, h2, by rw [h1]; rfl, by rw [h2]; rfl⟩
  · intro stR calls hok
    obtain ⟨_, _, _, _, hst2, _⟩ := refundPayment_ok oracle caller pid st stR calls hok
    have hex' : (stR.payments pid).exists_ = true := by
      rw [hst2, setStatus_payments_self]
      exact hex
    have hauth' : c2 = (stR.payments pid).payer ∨ c2 = stR.owner := by
      rw [hst2, setStatus_payments_self, setStatus_owner]
      exact hauth2
    have hnst' : ¬((stR.payments pid).status = PaymentStatus.pending ∨
        (stR.payments pid).status = PaymentStatus.completed) := by
      rw [hst2, setStatus_payments_self]
      rintro (hc | hc) <;> simp at hc
    simp only [refundPayment]
    rw [if_pos hex', if_pos hauth', if_neg hnst']

theorem c6_transition_guards_witness :
    ((stBRefunded.payments 1).exists_ = true ∧
      ((3 : Address) = (stBRefunded.payments 1).payer ∨ (3 : Address) = stBRefunded.owner) ∧
      (stBRefunded.payments 1).status = PaymentStatus.refunded) ∧
    refundPayment oracleT 3 1 stBRefunded = Except.error CoinPayError.invalidState ∧
    cancelPayment oracleT 3 1 stBRefunded = Except.error CoinPayError.invalidState ∧
    commitOr (refundPayment oracleT 3 1 stBRefunded) stBRefunded = stBRefunded ∧
    commitOr (cancelPayment oracleT 3 1 stBRefunded) stBRefunded = stBRefunded ∧
    ((stB.payments 1).status = PaymentStatus.pending ∨
      (stB.payments 1).status = PaymentStatus.completed) ∧
    refundPayment oracleT 3 1 (setStatus stB 1 PaymentStatus.refunded) =
      Except.error CoinPayError.invalidState := by
  have happ := c6_transition_guards oracleT oracleT 3 3 1 stBRefunded
    (by decide) (by decide) (by decide)
  have hterm := happ.2.2.1 (Or.inl (by decide))
  have happ2 := c6_transition_guards oracleT oracleT 3 3 1 stB
    (by decide) (by decide) (by decide)
  refine ⟨⟨by decide, by decide, by decide⟩, hterm.1, hterm.2.1, hterm.2.2.1, hterm.2.2.2, ?_, ?_⟩
  · exact happ2.2.1 (setStatus stB 1 PaymentStatus.refunded)
      [⟨3, 1000, setStatus stB 1 PaymentStatus.refunded⟩] rfl
  · exact happ2.2.2.2 (setStatus stB 1 PaymentStatus.refunded)
      [⟨3, 1000, setStatus stB 1 PaymentStatus.refunded⟩] rfl

/-- C2: every transfer-issuing transition writes the new status before any
external call, so the state snapshot every issued call runs against already
carries the advanced status, and re-invoking the same transition on that
snapshot reverts — for any caller and any transfer outcomes. -/
theorem c2_status_written_before_transfer (oracle or2 : Oracle) (caller c2 : Address)
    (pid : Nat) (st stR : CoinPayState) (calls : List TransferCall) :
    (refundPayment oracle caller pid st = Except.ok (stR, calls) →
      (stR.payments pid).status = PaymentStatus.refunded ∧
      calls.map TransferCall.snapshot = List.replicate calls.length stR ∧
      isError (refundPayment or2 c2 pid stR) = true) ∧
    (cancelPayment oracle caller pid st = Except.ok (stR, calls) →
      (stR.payments pid).status = PaymentStatus.cancelled ∧
      calls.map TransferCall.snapshot = List.replicate calls.length stR ∧
      isError (cancelPayment or2 c2 pid stR) = true) ∧
    (completePayment oracle pid st = Except.ok (stR, calls) →
      (stR.payments pid).status = PaymentStatus.completed ∧
      calls.map TransferCall.snapshot = List.replicate calls.length stR ∧
      isError (completePayment or2 pid stR) = true) := by
  refine ⟨?_, ?_, ?_⟩
  · intro hok
    obtain ⟨_, _, _, _, hst2, hcalls⟩ := refundPayment_ok oracle caller pid st stR calls hok
    have hstat : (stR.payments pid).status = PaymentStatus.refunded := by
      rw [hst2, setStatus_payments_self]
    refine ⟨hstat, by rw [hcalls]; rfl, ?_⟩
    exact refund_error_of_terminal or2 c2 pid stR
      (by rw [hstat]; decide) (by rw [hstat]; decide)
  · intro hok
    obtain ⟨_, _, _, _, hst2, hcalls⟩ := cancelPayment_ok oracle caller pid st stR calls hok
    have hstat : (stR.payments pid).status = PaymentStatus.cancelled := by
      rw [hst2, setStatus_payments_self]
    refine ⟨hstat, by rw [hcalls]; rfl, ?_⟩
    exact cancel_error_of_not_pending or2 c2 pid stR (by rw [hstat]; decide)
  · intro hok
    obtain ⟨_, hst2, f, r, _, hcases⟩ := completePayment_ok oracle pid st stR calls hok
    have hstat : (stR.payments pid).status = PaymentStatus.completed := by
      rw [hst2, setStatus_payments_self]
    refine ⟨hstat, ?_, ?_⟩
    · rcases hcases with ⟨_, hcalls⟩ | ⟨_, hcalls⟩ <;> rw [hcalls] <;> rfl
    · exact complete_error_of_not_pending or2 pid stR (by rw [hstat]; decide)

theorem c2_status_written_before_transfer_witness :
    (refundPayment oracleT 3 1 stB = Except.ok (stBRefunded, [⟨3, 1000, stBRefunded⟩]) ∧
      ((stBRefunded.payments 1).status = PaymentStatus.refunded ∧
        List.map TransferCall.snapshot [⟨3, 1000, stBRefunded⟩] =
          List.replicate (List.length ([⟨3, 1000, stBRefunded⟩] : List TransferCall)) stBRefunded ∧
        isError (refundPayment oracleT 5 1 stBRefunded) = true)) ∧
    (cancelPayment oracleT 3 1 stB = Except.ok (stBCancelled, [⟨3, 1000, stBCancelled⟩]) ∧
      ((stBCancelled.payments 1).status = PaymentStatus.cancelled ∧
        List.map TransferCall.snapshot [⟨3, 1000, stBCancelled⟩] =
          List.replicate (List.length ([⟨3, 1000, stBCancelled⟩] : List TransferCall)) stBCancelled ∧
        isError (cancelPayment oracleT 5 1 stBCancelled) = true)) ∧
    (completePayment oracleT 1 stB =
        Except.ok (stBCompleted, [⟨2, 2, stBCompleted⟩, ⟨4, 998, stBCompleted⟩]) ∧
      ((stBCompleted.payments 1).status = PaymentStatus.completed ∧
        List.map TransferCall.snapshot [⟨2, 2, stBCompleted⟩, ⟨4, 998, stBCompleted⟩] =
          List.replicate
            (List.length ([⟨2, 2, stBCompleted⟩, ⟨4, 998, stBCompleted⟩] : List TransferCall))
            stBCompleted ∧
        isError (completePayment oracleT 1 stBCompleted) = true)) := by
  refine ⟨⟨rfl, ?_⟩, ⟨rfl, ?_⟩, ⟨rfl, ?_⟩⟩
  · exact (c2_status_written_before_transfer oracleT oracleT 3 5 1 stB stBRefunded
      [⟨3, 1000, stBRefunded⟩]).1 rfl
  · exact (c2_status_written_before_transfer oracleT oracleT 3 5 1 stB stBCancelled
      [⟨3, 1000, stBCancelled⟩]).2.1 rfl
  · exact (c2_status_written_before_transfer oracleT oracleT 3 5 1 stB stBCompleted
      [⟨2, 2, stBCompleted⟩, ⟨4, 998, stBCompleted⟩]).2.2 rfl

/-- C3: on every transfer-issuing transition, a failing required transfer
makes the whole operation revert with `transferFailed`, and under revert
semantics the pre-state persists unchanged: the status write inside the
failed attempt does not survive. -/
theorem c3_transfer_failure_aborts (oracle oracle2 : Oracle) (caller : Address)
    (pid : Nat) (st : CoinPayState) (f r : Nat)
    (hex : (st.payments pid).exists_ = true)
    (hauth : caller = (st.payments pid).payer ∨ caller = st.owner)
    (hst : (st.payments pid).status = PaymentStatus.pending)
    (hsplit : split (st.payments pid).amount st.platformFeeBps = some (f, r))
    (hor : oracle (st.payments pid).payer (st.payments pid).amount = false)
    (hor2 : oracle (st.payments pid).recipient r = false)
    (hf : 0 < f) (hfr : st.feeRecipient ≠ 0)
    (hor3 : oracle2 st.feeRecipient f = false) :
    refundPayment oracle caller pid st = Except.error CoinPayError.transferFailed ∧
    cancelPayment oracle caller pid st = Except.error CoinPayError.transferFailed ∧
    completePayment oracle pid st = Except.error CoinPayError.transferFailed ∧
    completePayment oracle2 pid st = Except.error CoinPayError.transferFailed ∧
    commitOr (refundPayment oracle caller pid st) st = st ∧
    commitOr (cancelPayment oracle caller pid st) st = st ∧
    commitOr (completePayment oracle pid st) st = st := by
  have h1 : refundPayment oracle caller pid st = Except.error CoinPayError.transferFailed := by
    simp only [refundPayment]
    rw [if_pos hex, if_pos hauth, if_pos (Or.inl hst), if_neg (by simp [hor])]
  have h2 : cancelPayment oracle caller pid st = Except.error CoinPayError.transferFailed := by
    simp only [cancelPayment]
    rw [if_pos hex, if_pos hauth, if_pos hst, if_neg (by simp [hor])]
  have h3 : completePayment oracle pid st = Except.error CoinPayError.transferFailed := by
    simp only [completePayment]
    rw [if_pos hst]
    simp only [hsplit]
    by_cases hfee : 0 < f ∧ st.feeRecipient ≠ 0
    · rw [if_pos hfee]
      cases hfo : oracle st.feeRecipient f
      · rw [if_neg (by simp)]
      · rw [if_pos rfl, if_neg (by simp [hor2])]
    · rw [if_neg hfee, if_neg (by simp [hor2])]
  have h4 : completePayment oracle2 pid st = Except.error CoinPayError.transferFailed := by
    simp only [completePayment]
    rw [if_pos hst]
    simp only [hsplit]
    rw [if_pos ⟨hf, hfr⟩, if_neg (by simp [hor3])]
  exact ⟨h1, h2, h3, h4, by rw [h1]; rfl, by rw [h2]; rfl, by rw [h3]; rfl⟩

theorem c3_transfer_failure_aborts_witness :
    ((stB.payments 1).exists_ = true ∧
      ((3 : Address) = (stB.payments 1).payer ∨ (3 : Address) = stB.owner) ∧
      (stB.payments 1).status = PaymentStatus.pending ∧
      split (stB.payments 1).amount stB.platformFeeBps = some (2, 998) ∧
      oracleF (stB.payments 1).payer (stB.payments 1).amount = false ∧
      0 < 2 ∧ stB.feeRecipient ≠ 0) ∧
    (refundPayment oracleF 3 1 stB = Except.error CoinPayError.transferFailed ∧
      cancelPayment oracleF 3 1 stB = Except.error CoinPayError.transferFailed ∧
      completePayment oracleF 1 stB = Except.error CoinPayError.transferFailed ∧
      completePayment oracleF 1 stB = Except.error CoinPayError.transferFailed ∧
      commitOr (refundPayment oracleF 3 1 stB) stB = stB ∧
      commitOr (cancelPayment oracleF 3 1 stB) stB = stB ∧
      commitOr (completePayment oracleF 1 stB) stB = stB) :=
  ⟨⟨by decide, by decide, by decide, by decide, rfl, by decide, by decide⟩,
    c3_transfer_failure_aborts oracleF oracleF 3 1 stB 2 998
      (by decide) (by decide) (by decide) (by decide) rfl rfl (by decide) (by decide) rfl⟩

/-- C8: `createPayment` rejects a null recipient and self-payment with
`invalidRecipient` and a zero amount with `invalidAmount`; on success it
allocates the next sequential id `paymentCounter + 1`, stores the record
(whose status is Completed within the same operation), and appends the id
to the payer's owner index. -/
theorem c8_create_validates_and_allocates (oracle : Oracle) (caller recipient : Address)
    (value : Nat) (description : String) (timestamp : Nat) (st : CoinPayState) :
    (recipient = 0 ∨ recipient = caller →
      createPayment oracle caller recipient value description timestamp st =
        Except.error CoinPayError.invalidRecipient) ∧
    (recipient ≠ 0 → recipient ≠ caller → value = 0 →
      createPayment oracle caller recipient value description timestamp st =
        Except.error CoinPayError.invalidAmount) ∧
    (∀ pid st2 calls,
      createPayment oracle caller recipient value description timestamp st =
        Except.ok (pid, st2, calls) →
      pid = st.paymentCounter + 1 ∧
      st2.paymentCounter = st.paymentCounter + 1 ∧
      st2.payments pid =
        ⟨pid, caller, recipient, value, timestamp, PaymentStatus.completed, description, true⟩ ∧
      st2.userPayments caller = st.userPayments caller ++ [pid]) := by
  refine ⟨?_, ?_, ?_⟩
  · intro hbad
    by_cases h0 : recipient = 0
    · simp only [createPayment]
      rw [if_pos h0]
    · have h1 : recipient = caller := hbad.resolve_left h0
      simp only [createPayment]
      rw [if_neg h0, if_pos h1]
  · intro h0 h1 h2
    simp only [createPayment]
    rw [if_neg h0, if_neg h1, if_pos h2]
  · intro pid st2 calls hok
    obtain ⟨_, _, _, hpid, hcomp⟩ :=
      createPayment_ok oracle caller recipient value description timestamp st st2 pid calls hok
    obtain ⟨_, hst2, _⟩ := completePayment_ok _ _ _ _ _ hcomp
    subst hpid
    refine ⟨rfl, ?_, ?_, ?_⟩
    · rw [hst2, setStatus_counter]
      rfl
    · rw [hst2, setStatus_payments_self]
      simp [allocState]
    · rw [hst2, setStatus_userPayments]
      simp [allocState]

theorem c8_create_validates_and_allocates_witness :
    createPayment oracleT 3 4 1000 "" 0 (constructorFn 1 2) =
      Except.ok (1, stC, [⟨2, 2, stC⟩, ⟨4, 998, stC⟩]) ∧
    (1 = (constructorFn 1 2).paymentCounter + 1 ∧
      stC.paymentCounter = (constructorFn 1 2).paymentCounter + 1 ∧
      stC.payments 1 = ⟨1, 3, 4, 1000, 0, PaymentStatus.completed, "", true⟩ ∧
      stC.userPayments 3 = (constructorFn 1 2).userPayments 3 ++ [1]) ∧
    createPayment oracleT 3 0 1000 "" 0 (constructorFn 1 2) =
      Except.error CoinPayError.invalidRecipient ∧
    createPayment oracleT 3 4 0 "" 0 (constructorFn 1 2) =
      Except.error CoinPayError.invalidAmount := by
  refine ⟨rfl, ?_, ?_, ?_⟩
  · exact (c8_create_validates_and_allocates oracleT 3 4 1000 "" 0 (constructorFn 1 2)).2.2
      1 stC [⟨2, 2, stC⟩, ⟨4, 998, stC⟩] rfl
  · exact (c8_create_validates_and_allocates oracleT 3 0 1000 "" 0 (constructorFn 1 2)).1
      (Or.inl rfl)
  · exact (c8_create_validates_and_allocates oracleT 3 4 0 "" 0 (constructorFn 1 2)).2.1
      (by decide) (by decide) rfl

/-- No single transaction can raise the stored fee rate above 1000 bps. -/
theorem execOp_feeBps_le (oracle : Oracle) (op : Op) (st : CoinPayState)
    (h : st.platformFeeBps ≤ 1000) :
    (execOp oracle op st).1.platformFeeBps ≤ 1000 := by
  cases op with
  | create caller recipient value description timestamp =>
    cases hE : createPayment oracle caller recipient value description timestamp st with
    | ok res =>
      obtain ⟨pid, st2, calls⟩ := res
      obtain ⟨_, _, _, _, hcomp⟩ :=
        createPayment_ok oracle caller recipient value description timestamp st st2 pid calls hE
      obtain ⟨_, hst2, _⟩ := completePayment_ok _ _ _ _ _ hcomp
      simp only [execOp, hE]
      rw [hst2, setStatus_feeBps]
      simpa [allocState] using h
    | error e =>
      simp only [execOp, hE]
      exact h
  | refund caller pid =>
    cases hE : refundPayment oracle caller pid st with
    | ok res =>
      obtain ⟨st2, calls⟩ := res
      obtain ⟨_, _, _, _, hst2, _⟩ := refundPayment_ok oracle caller pid st st2 calls hE
      simp only [execOp, hE]
      rw [hst2, setStatus_feeBps]
      exact h
    | error e =>
      simp only [execOp, hE]
      exact h
  | cancel caller pid =>
    cases hE : cancelPayment oracle caller pid st with
    | ok res =>
      obtain ⟨st2, calls⟩ := res
      obtain ⟨_, _, _, _, hst2, _⟩ := cancelPayment_ok oracle caller pid st st2 calls hE
      simp only [execOp, hE]
      rw [hst2, setStatus_feeBps]
      exact h
    | error e =>
      simp only [execOp, hE]
      exact h
  | setFee caller newFeeBps =>
    cases hE : updatePlatformFee caller newFeeBps st with
    | ok st2 =>
      obtain ⟨_, hb, hst2⟩ := updatePlatformFee_ok caller newFeeBps st st2 hE
      simp only [execOp, hE]
      rw [hst2]
      exact hb
    | error e =>
      simp only [execOp, hE]
      exact h
  | setFeeRecipient caller newFeeRecipient =>
    cases hE : updateFeeRecipient caller newFeeRecipient st with
    | ok st2 =>
      obtain ⟨_, _, hst2⟩ := updateFeeRecipient_ok caller newFeeRecipient st st2 hE
      simp only [execOp, hE]
      rw [hst2]
      exact h
    | error e =>
      simp only [execOp, hE]
      exact h

/-- The 1000 bps fee cap holds along every run. -/
theorem run_feeBps_le (oracle : Oracle) (ops : List Op) (st : CoinPayState)
    (h : st.platformFeeBps ≤ 1000) :
    (run oracle ops st).1.platformFeeBps ≤ 1000 := by
  induction ops generalizing st with
  | nil => simpa [run] using h
  | cons op rest ih =>
    simp only [run]
    exact ih _ (execOp_feeBps_le oracle op st h)

/-- C9: an admin `updatePlatformFee(newBps)` fails with `invalidFee` exactly
when `newBps > 1000`; `updatePlatformFee(1000)` succeeds; a successful
update stores `newBps`, which every subsequent fee split of a completing
payment then uses; and along every run from a fresh deployment the stored
rate never exceeds 1000. -/
theorem c9_update_fee (st : CoinPayState) (caller : Address) (newFeeBps : Nat)
    (hc : caller = st.owner) :
    (updatePlatformFee caller newFeeBps st = Except.error CoinPayError.invalidFee ↔
      1000 < newFeeBps) ∧
    updatePlatformFee caller 1000 st = Except.ok { st with platformFeeBps := 1000 } ∧
    (∀ st1, updatePlatformFee caller newFeeBps st = Except.ok st1 →
      st1.platformFeeBps = newFeeBps ∧ st1.platformFeeBps ≤ 1000 ∧
      (∀ oracle pid st2 calls f r,
        completePayment oracle pid st1 = Except.ok (st2, calls) →
        split (st1.payments pid).amount newFeeBps = some (f, r) →
        (calls.map TransferCall.value = [f, r] ∨ calls.map TransferCall.value = [r]))) ∧
    (∀ oracle ops deployer fr,
      (run oracle ops (constructorFn deployer fr)).1.platformFeeBps ≤ 1000) := by
  have key : updatePlatformFee caller newFeeBps st =
      if newFeeBps ≤ 1000 then Except.ok { st with platformFeeBps := newFeeBps }
      else Except.error CoinPayError.invalidFee := by
    simp only [updatePlatformFee]
    rw [if_pos hc]
  refine ⟨?_, ?_, ?_, ?_⟩
  · rw [key]
    by_cases hb : newFeeBps ≤ 1000
    · rw [if_pos hb]
      constructor
      · intro hcontra
        exact absurd hcontra (by simp)
      · intro hgt
        exact absurd hgt (by omega)
    · rw [if_neg hb]
      constructor
      · intro _
        omega
      · intro _
        rfl
  · simp only [updatePlatformFee]
    rw [if_pos hc, if_pos (by omega)]
  · intro st1 hok
    obtain ⟨_, hb, hst1⟩ := updatePlatformFee_ok caller newFeeBps st st1 hok
    have hbps : st1.platformFeeBps = newFeeBps := by rw [hst1]
    refine ⟨hbps, by omega, ?_⟩
    intro oracle pid st2 calls f r hcomp hsp
    obtain ⟨_, _, f', r', hsplit', hcases⟩ := completePayment_ok oracle pid st1 st2 calls hcomp
    rw [hbps, hsp] at hsplit'
    simp only [Option.some.injEq, Prod.mk.injEq] at hsplit'
    obtain ⟨hf, hr⟩ := hsplit'
    subst hf
    subst hr
    rcases hcases with ⟨_, hcalls⟩ | ⟨_, hcalls⟩
    · left
      rw [hcalls]
      rfl
    · right
      rw [hcalls]
      rfl
  · intro oracle ops deployer fr
    exact run_feeBps_le oracle ops (constructorFn deployer fr) (by norm_num [constructorFn])

theorem c9_update_fee_witness :
    ((1 : Address) = stB.owner ∧
      updatePlatformFee 1 1000 stB = Except.ok stD ∧
      completePayment oracleT 1 stD = Except.ok (stD2, [⟨2, 100, stD2⟩, ⟨4, 900, stD2⟩]) ∧
      split (stD.payments 1).amount 1000 = some (100, 900)) ∧
    ((updatePlatformFee 1 1000 stB = Except.error CoinPayError.invalidFee ↔ 1000 < 1000) ∧
      stD.platformFeeBps = 1000 ∧ stD.platformFeeBps ≤ 1000 ∧
      (List.map TransferCall.value [⟨2, 100, stD2⟩, ⟨4, 900, stD2⟩] = [100, 900] ∨
        List.map TransferCall.value [⟨2, 100, stD2⟩, ⟨4, 900, stD2⟩] = [900]) ∧
      (run oracleT [] (constructorFn 1 2)).1.platformFeeBps ≤ 1000) := by
  have happ := c9_update_fee stB 1 1000 rfl
  have hupd := happ.2.2.1 stD rfl
  refine ⟨⟨rfl, rfl, rfl, rfl⟩, happ.1, hupd.1, hupd.2.1, ?_, happ.2.2.2 oracleT [] 1 2⟩
  exact hupd.2.2 oracleT 1 stD2 [⟨2, 100, stD2⟩, ⟨4, 900, stD2⟩] 100 900 rfl rfl

/-- C10: a committed completion issues the fee transfer exactly when the
fee amount is positive and the configured fee recipient is non-null, and
otherwise issues the single recipient transfer of `recipientAmount` only
(leaving the fee share in the contract); the constructor accepts a null
fee recipient without validation, so this path is reachable. -/
theorem c10_fee_leg_conditional (oracle : Oracle) (pid : Nat) (st st2 : CoinPayState)
    (calls : List TransferCall) (f r : Nat) (deployer : Address)
    (hok : completePayment oracle pid st = Except.ok (st2, calls))
    (hsplit : split (st.payments pid).amount st.platformFeeBps = some (f, r)) :
    (calls.map (fun c => (c.dest, c.value)) =
      if 0 < f ∧ st.feeRecipient ≠ 0 then
        [(st.feeRecipient, f), ((st.payments pid).recipient, r)]
      else [((st.payments pid).recipient, r)]) ∧
    (constructorFn deployer 0).feeRecipient = 0 := by
  obtain ⟨_, _, f', r', hsplit', hcases⟩ := completePayment_ok oracle pid st st2 calls hok
  rw [hsplit] at hsplit'
  simp only [Option.some.injEq, Prod.mk.injEq] at hsplit'
  obtain ⟨hf, hr⟩ := hsplit'
  subst hf
  subst hr
  refine ⟨?_, rfl⟩
  rcases hcases with ⟨hfee, hcalls⟩ | ⟨hfee, hcalls⟩
  · rw [if_pos hfee, hcalls]
    rfl
  · rw [if_neg hfee, hcalls]
    rfl

theorem c10_fee_leg_conditional_witness :
    (completePayment oracleT 1 stB0 = Except.ok (stE, [⟨4, 998, stE⟩]) ∧
      split (stB0.payments 1).amount stB0.platformFeeBps = some (2, 998)) ∧
    ((List.map (fun c => (c.dest, c.value)) [(⟨4, 998, stE⟩ : TransferCall)] =
      if 0 < 2 ∧ stB0.feeRecipient ≠ 0 then
        [(stB0.feeRecipient, 2), ((stB0.payments 1).recipient, 998)]
      else [((stB0.payments 1).recipient, 998)]) ∧
    (constructorFn 7 0).feeRecipient = 0) :=
  ⟨⟨rfl, rfl⟩,
    c10_fee_leg_conditional oracleT 1 stB0 stE [⟨4, 998, stE⟩] 2 998 7 rfl rfl⟩

/-- Every transaction preserves the lifetime-accounting invariant. -/
theorem execOp_accounted (oracle : Oracle) (op : Op) (st : CoinPayState)
    (led : List (Nat × Nat)) (h : Accounted st led) :
    Accounted (execOp oracle op st).1 (led ++ (execOp oracle op st).2) := by
  simp only [Accounted] at h
  obtain ⟨hfr, hzero, hacc⟩ := h
  cases op with
  | create caller recipient value description timestamp =>
    cases hE : createPayment oracle caller recipient value description timestamp st with
    | error e =>
      simp only [execOp, hE, List.append_nil, Accounted]
      exact ⟨hfr, hzero, hacc⟩
    | ok res =>
      obtain ⟨pid, st2, calls⟩ := res
      obtain ⟨_, _, hv, hpid, hcomp⟩ :=
        createPayment_ok oracle caller recipient value description timestamp st st2 pid calls hE
      obtain ⟨hpend, hst2, f, r, hsplit, hcases⟩ := completePayment_ok _ _ _ _ _ hcomp
      subst hpid
      subst hst2
      simp only [allocState_payments_self, allocState_feeBps] at hsplit
      obtain ⟨hfeq, hreq, hfle, hsum⟩ := split_ok _ _ _ _ hsplit
      have hled : (calls.map fun c => (st.paymentCounter + 1, c.value)) =
          [(st.paymentCounter + 1, f), (st.paymentCounter + 1, r)] ∨
          ((calls.map fun c => (st.paymentCounter + 1, c.value)) =
            [(st.paymentCounter + 1, r)] ∧ f = 0) := by
        rcases hcases with ⟨_, hcalls⟩ | ⟨hfee, hcalls⟩
        · left
          rw [hcalls]
          rfl
        · right
          refine ⟨by rw [hcalls]; rfl, ?_⟩
          by_contra hf0
          exact hfee ⟨Nat.pos_of_ne_zero hf0, by rw [allocState_feeRecipient]; exact hfr⟩
      simp only [execOp, hE, Accounted]
      refine ⟨?_, ?_, ?_⟩
      · rw [setStatus_feeRecipient, allocState_feeRecipient]
        exact hfr
      · intro q hq
        rw [setStatus_counter, allocState_counter] at hq
        rw [setStatus_payments_other _ _ _ _ (by omega),
          allocState_payments_other _ _ _ _ _ _ _ (by omega)]
        exact hzero q (by omega)
      · intro q
        by_cases hq : q = st.paymentCounter + 1
        · subst hq
          have hold : outboundFor (st.paymentCounter + 1) led = 0 := by
            have hp := hacc (st.paymentCounter + 1)
            simp only [PaymentAccounted] at hp
            rw [hzero _ (Nat.lt_succ_self _)] at hp
            simpa [zeroPayment] using hp
          have hnew : outboundFor (st.paymentCounter + 1)
              (calls.map fun c => (st.paymentCounter + 1, c.value)) = value := by
            rcases hled with hled | ⟨hled, hf0⟩
            · rw [hled]
              simp [outboundFor]
              omega
            · rw [hled]
              simp [outboundFor]
              omega
          simp only [PaymentAccounted, setStatus_payments_self, allocState_payments_self,
            outboundFor_append, hold, hnew]
          simp
        · have hq2 : (setStatus (allocState caller recipient value description timestamp st)
              (st.paymentCounter + 1) PaymentStatus.completed).payments q = st.payments q := by
            rw [setStatus_payments_other _ _ _ _ hq,
              allocState_payments_other _ _ _ _ _ _ _ hq]
          have hnew : outboundFor q (calls.map fun c => (st.paymentCounter + 1, c.value)) = 0 := by
            rcases hled with hled | ⟨hled, _⟩ <;> rw [hled] <;>
              simp [outboundFor, Ne.symm hq]
          simp only [PaymentAccounted, hq2, outboundFor_append, hnew]
          have hp := hacc q
          simp only [PaymentAccounted] at hp
          simpa using hp
  | refund caller pid =>
    cases hE : refundPayment oracle caller pid st with
    | error e =>
      simp only [execOp, hE, List.append_nil, Accounted]
      exact ⟨hfr, hzero, hacc⟩
    | ok res =>
      obtain ⟨st2, calls⟩ := res
      obtain ⟨hex, _, hstold, _, hst2, hcalls⟩ := refundPayment_ok oracle caller pid st st2 calls hE
      subst hst2
      have hple : ¬(st.paymentCounter < pid) := by
        intro hlt
        rw [hzero pid hlt] at hex
        simp [zeroPayment] at hex
      have hp := hacc pid
      simp only [PaymentAccounted] at hp
      rw [if_pos hex] at hp
      have hcompl : (st.payments pid).status = PaymentStatus.completed ∧
          outboundFor pid led = (st.payments pid).amount := by
        rcases hp with hp | ⟨hp1, _⟩
        · exact hp
        · rcases hstold with hs | hs <;> rw [hp1] at hs <;> exact absurd hs (by decide)
      have hled2 : (calls.map fun c => (pid, c.value)) =
          [(pid, (st.payments pid).amount)] := by
        rw [hcalls]
        rfl
      simp only [execOp, hE, hled2, Accounted]
      refine ⟨?_, ?_, ?_⟩
      · rw [setStatus_feeRecipient]
        exact hfr
      · intro q hq
        rw [setStatus_counter] at hq
        have hqpid : q ≠ pid := by
          intro hqe
          subst hqe
          exact hple hq
        rw [setStatus_payments_other _ _ _ _ hqpid]
        exact hzero q hq
      · intro q
        by_cases hq : q = pid
        · subst hq
          simp only [PaymentAccounted, setStatus_payments_self, outboundFor_append, hcompl.2]
          simp [hex, outboundFor, hcompl.1]
          omega
        · have hq2 : (setStatus st pid PaymentStatus.refunded).payments q = st.payments q :=
            setStatus_payments_other st pid q PaymentStatus.refunded hq
          have hnew : outboundFor q [(pid, (st.payments pid).amount)] = 0 := by
            simp [outboundFor, Ne.symm hq]
          simp only [PaymentAccounted, hq2, outboundFor_append, hnew]
          have hp2 := hacc q
          simp only [PaymentAccounted] at hp2
          simpa using hp2
  | cancel caller pid =>
    cases hE : cancelPayment oracle caller pid st with
    | error e =>
      simp only [execOp, hE, List.append_nil, Accounted]
      exact ⟨hfr, hzero, hacc⟩
    | ok res =>
      obtain ⟨st2, calls⟩ := res
      obtain ⟨hex, _, hpend, _, _, _⟩ := cancelPayment_ok oracle caller pid st st2 calls hE
      have hp := hacc pid
      simp only [PaymentAccounted] at hp
      rw [if_pos hex] at hp
      rcases hp with ⟨hs, _⟩ | ⟨hs, _⟩ <;> rw [hpend] at hs <;> exact absurd hs (by decide)
  | setFee caller newFeeBps =>
    cases hE : updatePlatformFee caller newFeeBps st with
    | error e =>
      simp only [execOp, hE, List.append_nil, Accounted]
      exact ⟨hfr, hzero, hacc⟩
    | ok st2 =>
      obtain ⟨_, _, hst2⟩ := updatePlatformFee_ok caller newFeeBps st st2 hE
      subst hst2
      simp only [execOp, hE, List.append_nil, Accounted]
      exact ⟨hfr, hzero, hacc⟩
  | setFeeRecipient caller newFeeRecipient =>
    cases hE : updateFeeRecipient caller newFeeRecipient st with
    | error e =>
      simp only [execOp, hE, List.append_nil, Accounted]
      exact ⟨hfr, hzero, hacc⟩
    | ok st2 =>
      obtain ⟨_, hnz, hst2⟩ := updateFeeRecipient_ok caller newFeeRecipient st st2 hE
      subst hst2
      simp only [execOp, hE, List.append_nil, Accounted]
      exact ⟨hnz, hzero, hacc⟩

/-- Runs preserve the lifetime-accounting invariant. -/
theorem run_accounted (oracle : Oracle) (ops : List Op) (st : CoinPayState)
    (led : List (Nat × Nat)) (h : Accounted st led) :
    Accounted (run oracle ops st).1 (led ++ (run oracle ops st).2) := by
  induction ops generalizing st led with
  | nil => simpa [run] using h
  | cons op rest ih =>
    simp only [run]
    have h1 := execOp_accounted oracle op st led h
    have h2 := ih (execOp oracle op st).1 (led ++ (execOp oracle op st).2) h1
    simpa [List.append_assoc] using h2

/-- C1 (amended): from any deployment with a non-null fee recipient, along
every reachable operation sequence, each transfer-issuing transition pays
out at most once per payment — an allocated payment is either Completed
with lifetime outbound exactly `amount` (fee + recipient share), or
Refunded with lifetime outbound exactly `2 * amount` because the refund
pays the full `amount` again on top of the completion payouts; ids never
allocated have zero attributable outbound. -/
theorem c1_lifetime_accounting (oracle : Oracle) (ops : List Op)
    (deployer fr : Address) (pid : Nat) (hfr : fr ≠ 0) :
    PaymentAccounted (run oracle ops (constructorFn deployer fr)).1
      (run oracle ops (constructorFn deployer fr)).2 pid := by
  have h0 : Accounted (constructorFn deployer fr) [] := by
    simp only [Accounted]
    refine ⟨hfr, ?_, ?_⟩
    · intro q _
      rfl
    · intro q
      simp [PaymentAccounted, constructorFn, zeroPayment, outboundFor]
  have hrun := run_accounted oracle ops (constructorFn deployer fr) [] h0
  simp only [List.nil_append, Accounted] at hrun
  exact hrun.2.2 pid

theorem c1_lifetime_accounting_witness :
    (2 : Address) ≠ 0 ∧
    PaymentAccounted
      (run oracleT [Op.create 3 4 1000 "" 0, Op.refund 3 1] (constructorFn 1 2)).1
      (run oracleT [Op.create 3 4 1000 "" 0, Op.refund 3 1] (constructorFn 1 2)).2 1 :=
  ⟨by decide,
    c1_lifetime_accounting oracleT [Op.create 3 4 1000 "" 0, Op.refund 3 1] 1 2 1 (by decide)⟩

/-- C1 counterexample: in the concrete reachable sequence deploy →
`createPayment` (auto-completed, paying fee 2 + recipient share 998) →
`refundPayment` (paying the full 1000 again), payment 1 has amount 1000
but lifetime attributable outbound 2000 — the total does not equal the
amount exactly once, and transfers are issued by two distinct transitions
for the same payment. -/
theorem c1_double_payout_counterexample :
    (trace1.1.payments 1).exists_ = true ∧
    (trace1.1.payments 1).amount = 1000 ∧
    trace1.2 = [(1, 2), (1, 998), (1, 1000)] ∧
    outboundFor 1 trace1.2 = 2000 ∧
    outboundFor 1 trace1.2 ≠ (trace1.1.payments 1).amount := by
  refine ⟨by decide, by decide, by decide, by decide, by decide⟩

end CoinPay
